import Mathlib

/-!
# Verification of the ai-web-summarizer content-extraction pipeline

Shallow embedding of the repository's core modules:

* `src/utils/textProcessor.js` — `cleanText`, `extractMetadata`, `truncateText`;
* the scraper module (`scrapeWebsite`, `scrapeWithPuppeteer`, `scrapeWithCheerio`,
  `isValidUrl`) — the pure parts (URL validation, content selection, text
  normalisation/truncation, success thresholds, fallback orchestration) are
  embedded directly; the network/browser effects are abstracted as oracle
  parameters giving each fetcher's outcome;
* the Gemini client module (`retryWithBackoff`, `summarizeText`,
  `extractKeyPoints`) — the upstream model call is an oracle mapping the call
  index to its outcome, and the retry loop is embedded with an explicit trace
  of calls and sleep delays.

JavaScript strings are modelled as Lean `String`/`List Char` (code-unit vs
code-point distinctions are not load-bearing for any property below).
-/

/-! ## JavaScript character classes

`jsWs` is the character class matched by `\s` in JavaScript regular
expressions (and stripped by `String.prototype.trim`): ASCII whitespace,
NBSP, the Unicode space separators, line/paragraph separators, and BOM. -/

def jsWs (c : Char) : Bool :=
  c = ' ' || c = '\t' || c = '\n' || c = '\r' || c = '\x0b' || c = '\x0c' ||
  c = ' ' || c = ' ' || (' ' ≤ c && c ≤ ' ') ||
  c = ' ' || c = ' ' || c = ' ' || c = ' ' ||
  c = '　' || c = '﻿'

/-- The JavaScript `\w` class: `[A-Za-z0-9_]`. -/
def jsWordChar (c : Char) : Bool :=
  ('a' ≤ c && c ≤ 'z') || ('A' ≤ c && c ≤ 'Z') || ('0' ≤ c && c ≤ '9') || c = '_'

/-- Characters kept by `cleanText`'s filter regex `[^\w\s.,!?;:()\-'"]`:
word characters, whitespace, and the listed punctuation. -/
def allowedChar (c : Char) : Bool :=
  jsWordChar c || jsWs c ||
  c = '.' || c = ',' || c = '!' || c = '?' || c = ';' || c = ':' ||
  c = '(' || c = ')' || c = '-' || c = '\'' || c = '"'

/-! ## Regex-replace and trim primitives -/

/-- `collapseWsAux prevWs l` models `l.replace(/\s+/g, ' ')`: each maximal run
of `\s` characters becomes a single space.  `prevWs` records whether the
previous character belonged to a whitespace run already replaced. -/
def collapseWsAux : Bool → List Char → List Char
  | _, [] => []
  | prevWs, c :: rest =>
    if jsWs c then
      if prevWs then collapseWsAux true rest
      else ' ' :: collapseWsAux true rest
    else c :: collapseWsAux false rest

/-- `text.replace(/\s+/g, ' ')` on character lists. -/
def collapseWs (l : List Char) : List Char := collapseWsAux false l

/-- Drop trailing whitespace (the right half of `String.prototype.trim`). -/
def rdropWsList (l : List Char) : List Char :=
  (l.reverse.dropWhile jsWs).reverse

/-- `String.prototype.trim` on character lists: strip leading and trailing
whitespace. -/
def trimList (l : List Char) : List Char :=
  rdropWsList (l.dropWhile jsWs)

/-! ## JavaScript `String.prototype.split` on a character-class regex

`"".split(re)` gives `[""]`; a separator match at the start or end of the
string produces an empty field there; fields between separators are the
maximal runs of non-separator characters. -/

def jsSplitAux (p : Char → Bool) : Bool → List Char → List Char → List (List Char)
  | _, [], acc => [acc.reverse]
  | prevSep, c :: rest, acc =>
    if p c then
      if prevSep then jsSplitAux p true rest acc
      else acc.reverse :: jsSplitAux p true rest []
    else jsSplitAux p false rest (c :: acc)

/-- `text.split(/[class]+/)` where `p` decides membership in the class. -/
def jsSplitOn (p : Char → Bool) (l : List Char) : List (List Char) :=
  jsSplitAux p false l []

/-- Character class `[.!?]` used by `extractMetadata`'s sentence split. -/
def sentenceDelim (c : Char) : Bool := c = '.' || c = '!' || c = '?'

/-! ## `src/utils/textProcessor.js` -/

/-- `cleanText` (textProcessor.js): on a falsy (empty) input return `''`;
otherwise collapse whitespace runs to single spaces, remove characters
outside the allow-list, and trim.  The steps happen in exactly this order,
as in the source. -/
def cleanText (s : String) : String :=
  if s.data.isEmpty then ""
  else String.mk (trimList ((collapseWs s.data).filter allowedChar))

/-- The metadata record produced by `extractMetadata`.  `timestamp` comes
from `new Date().toISOString()`; the embedding makes the clock an explicit
`now` argument to `extractMetadata`. -/
structure Metadata where
  wordCount : Nat
  sentenceCount : Nat
  characterCount : Nat
  readingTime : String
  timestamp : String
deriving DecidableEq, Repr

/-- `extractMetadata` (textProcessor.js).  `words = text.split(/\s+/)`,
`sentences = text.split(/[.!?]+/).filter(s => s.trim().length > 0)`,
`readingTime = Math.max(1, Math.round(words.length / 200))` (for natural
`w`, `Math.round(w / 200) = (w + 100) / 200` in integer division), and the
timestamp is the current clock reading `now`. -/
def extractMetadata (now : String) (text : String) : Metadata :=
  let words := jsSplitOn jsWs text.data
  let sentences := (jsSplitOn sentenceDelim text.data).filter
    (fun s => decide (0 < (trimList s).length))
  let readingMins := max 1 ((words.length + 100) / 200)
  { wordCount := words.length
    sentenceCount := sentences.length
    characterCount := text.data.length
    readingTime := toString readingMins ++ " min read"
    timestamp := now }

/-- `truncateText` (textProcessor.js): return the text unchanged when it fits,
otherwise `text.substring(0, maxLength) + '...'`. -/
def truncateText (text : String) (maxLength : Nat := 5000) : String :=
  if text.data.length ≤ maxLength then text
  else String.mk (text.data.take maxLength) ++ "..."

/-! ## The scraper module

`SCRAPER_CONFIG` with the source's defaults (environment overrides absent). -/

structure ScraperConfig where
  timeout : Nat
  maxRetries : Nat
  maxTextLength : Nat
  userAgent : String
deriving Repr

def SCRAPER_CONFIG : ScraperConfig :=
  { timeout := 30000
    maxRetries := 3
    maxTextLength := 10000
    userAgent := "Mozilla/5.0 (Windows NT 10.0; Win64; x64) AppleWebKit/537.36 (KHTML, like Gecko) Chrome/120.0.0.0 Safari/537.36" }

/-! ### URL validation

`isValidUrl` runs `new URL(url)` and checks `protocol === 'http:' ||
protocol === 'https:'`, returning `false` when parsing throws.  The WHATWG
parser is embedded at the scheme/host level, which is all `isValidUrl`
inspects: a scheme is an ASCII letter followed by letters, digits, `+`, `-`
or `.`, terminated by `:`; for the special schemes other than `file:` the
parser additionally requires a non-empty host after any run of (back)slashes.
(Stripping of surrounding control characters and finer host/port validation
are not modelled.) -/

def schemeChar (c : Char) : Bool :=
  c.isAlpha || ('0' ≤ c && c ≤ '9') || c = '+' || c = '-' || c = '.'

def specialSchemes : List String := ["http:", "https:", "ws:", "wss:", "ftp:", "file:"]

def urlProtocol (s : String) : Option String :=
  match s.data with
  | [] => none
  | c :: rest =>
    if c.isAlpha then
      let tw := rest.takeWhile schemeChar
      match rest.drop tw.length with
      | ':' :: afterColon =>
        let proto := String.mk ((c :: tw).map Char.toLower) ++ ":"
        if proto ∈ specialSchemes && proto ≠ "file:" then
          let afterSlashes := afterColon.dropWhile (fun d => d = '/' || d = '\\')
          let host := afterSlashes.takeWhile
            (fun d => d ≠ '/' && d ≠ '?' && d ≠ '#' && d ≠ '\\')
          if host.isEmpty then none else some proto
        else some proto
      | _ => none
    else none

def isValidUrl (url : String) : Bool :=
  match urlProtocol url with
  | some p => p = "http:" || p = "https:"
  | none => false

/-! ### Text normalisation and the success threshold shared by both fetchers -/

/-- The `text.replace(/\s+/g, ' ').trim().substring(0, maxTextLength)` step
both fetchers apply to the extracted raw text. -/
def scrapeNormalize (text : String) : String :=
  String.mk ((trimList (collapseWs text.data)).take SCRAPER_CONFIG.maxTextLength)

structure ScrapeSuccess where
  title : String
  text : String
  wordCount : Nat
  method : String
deriving DecidableEq, Repr

/-- Tail of `scrapeWithPuppeteer` (after browser teardown): normalise and
truncate the extracted text, succeed only above the 100-character threshold
(`title || 'Extracted Content'` defaults a falsy title), otherwise fall
through to `return null`. -/
def finalizePuppeteer (title text : String) : Option ScrapeSuccess :=
  let cleanedText := scrapeNormalize text
  if 100 < cleanedText.data.length then
    some { title := if title.data.isEmpty then "Extracted Content" else title
           text := cleanedText
           wordCount := (jsSplitOn jsWs cleanedText.data).length
           method := "puppeteer-stealth" }
  else none

/-- Tail of `scrapeWithCheerio`: identical normalisation and threshold, with
the already-resolved title and the `cheerio` method tag. -/
def finalizeCheerio (title text : String) : Option ScrapeSuccess :=
  let cleaned := scrapeNormalize text
  if 100 < cleaned.data.length then
    some { title := title
           text := cleaned
           wordCount := (jsSplitOn jsWs cleaned.data).length
           method := "cheerio" }
  else none

/-! ### Content-region selection

A document is abstracted as a partial map from selector strings to the
plain-text content of the matched element (`none` when
`document.querySelector`/`$(selector)` finds no element). -/

/-- `contentSelectors` of `scrapeWithCheerio`, in source order. -/
def contentSelectors : List String :=
  ["article", "main", "[role=\"main\"]", ".content", ".post-content",
   ".article-content", ".entry-content", "#main-content", "body"]

/-- `mainSelectors` of `scrapeWithPuppeteer`'s extraction script, in source
order. -/
def mainSelectors : List String :=
  ["main", "article", "[role=\"main\"]", ".content", ".main-content",
   "#content", "body"]

/-- One iteration of the Cheerio content loop: if the selector matches
(`element.length` truthy), keep its text when strictly longer than the text
held so far. -/
def cheerioStep (doc : String → Option String) (text sel : String) : String :=
  match doc sel with
  | some extractedText =>
    if text.data.length < extractedText.data.length then extractedText else text
  | none => text

/-- The Cheerio content loop: starting from `text = ''`, fold `cheerioStep`
over the selector list. -/
def selectContentCheerio (doc : String → Option String) : String :=
  contentSelectors.foldl (cheerioStep doc) ""

/-- The Puppeteer extraction loop over a selector list: return the inner text
of the first present selector whose text is longer than 200 characters
(`element && element.innerText && element.innerText.length > 200`; non-empty
follows from the length bound), else fall back to `document.body.innerText`. -/
def selectPuppeteerGo (doc : String → Option String) (bodyText : String) :
    List String → String
  | [] => bodyText
  | sel :: rest =>
    match doc sel with
    | some t => if 200 < t.data.length then t else selectPuppeteerGo doc bodyText rest
    | none => selectPuppeteerGo doc bodyText rest

/-- `scrapeWithPuppeteer`'s main-content resolution over `mainSelectors`. -/
def selectContentPuppeteer (doc : String → Option String) (bodyText : String) : String :=
  selectPuppeteerGo doc bodyText mainSelectors

/-! ### The fallback orchestrator -/

/-- The fetch tiers `scrapeWebsite` can attempt, in the order attempted. -/
inductive Attempt
  | rendered
  | lightweight
deriving DecidableEq, Repr

inductive ScrapeOutcome
  | ok (r : ScrapeSuccess)
  | err (msg : String)
deriving DecidableEq, Repr

def invalidUrlError : String :=
  "Invalid URL format. Please include http:// or https://"

def allFailedError : String :=
  "Could not extract content from this URL. The site likely uses advanced anti-bot protection (Cloudflare, PerimeterX, etc.) or requires authentication. Protected sites like LeetCode, LinkedIn, and Twitter may block automated access."

/-- `scrapeWebsite` (the fallback orchestrator).  The two fetchers perform
network and browser I/O; their outcomes for this URL are supplied as oracles
(`none` models every degraded-to-null path).  The returned list records which
fetchers were invoked, in order. -/
def scrapeWebsite (url : String)
    (puppeteerResult cheerioResult : Option ScrapeSuccess) :
    ScrapeOutcome × List Attempt :=
  if isValidUrl url = false then
    (ScrapeOutcome.err invalidUrlError, [])
  else
    match puppeteerResult with
    | some r => (ScrapeOutcome.ok r, [Attempt.rendered])
    | none =>
      match cheerioResult with
      | some r => (ScrapeOutcome.ok r, [Attempt.rendered, Attempt.lightweight])
      | none => (ScrapeOutcome.err allFailedError, [Attempt.rendered, Attempt.lightweight])

/-! ## The Gemini client module

Errors thrown by the upstream call are modelled by their `message` string.
The upstream itself is an oracle `fn : Nat → Except String String` giving the
outcome of the i-th invocation (`Except.error` models a thrown error). -/

/-- Boolean "p is a leading segment of l" on character lists. -/
def leadsList : List Char → List Char → Bool
  | [], _ => true
  | _ :: _, [] => false
  | p :: ps, c :: cs => p = c && leadsList ps cs

/-- Boolean substring containment on character lists. -/
def subOfList (pat : List Char) : List Char → Bool
  | [] => pat.isEmpty
  | c :: cs => leadsList pat (c :: cs) || subOfList pat cs

/-- `s.includes(pat)` for JavaScript strings. -/
def strIncludes (s pat : String) : Bool := subOfList pat.data s.data

/-- The retry condition of `retryWithBackoff`:
`error.message && (error.message.includes('429') ||
error.message.includes('RESOURCE_EXHAUSTED'))` — on an empty (falsy)
message both `includes` tests are irrelevant and the error is not retried,
which the embedding gets for free since nothing is a substring of `""`
except `""` itself and the two patterns are non-empty. -/
def isRateLimitError (msg : String) : Bool :=
  strIncludes msg "429" || strIncludes msg "RESOURCE_EXHAUSTED"

/-- Result of a `retryWithBackoff` run together with its observable trace:
how many times the wrapped operation was invoked and which backoff sleeps
were performed, in order. -/
structure RetryOutcome where
  result : Except String String
  calls : Nat
  delays : List Nat
deriving Repr

/-- The body of `retryWithBackoff`'s `for (let i = 0; i < maxRetries; i++)`
loop: `i` is the current loop index, `fuel` the number of remaining
iterations, `lastError` the last caught error.  On a rate-limit error the
loop sleeps `min(1000 * 2^i, 10000)` ms and continues; on any other error it
rethrows at once; when the iterations are exhausted it throws `lastError`
(an absent `lastError` — only possible with `maxRetries = 0` — is modelled
as the empty message). -/
def retryAux (fn : Nat → Except String String) (lastError : Option String) :
    Nat → Nat → RetryOutcome
  | _, 0 => { result := Except.error (lastError.getD ""), calls := 0, delays := [] }
  | i, fuel + 1 =>
    match fn i with
    | Except.ok v => { result := Except.ok v, calls := 1, delays := [] }
    | Except.error e =>
      if isRateLimitError e then
        let delay := min (1000 * 2 ^ i) 10000
        let rest := retryAux fn (some e) (i + 1) fuel
        { result := rest.result, calls := rest.calls + 1, delays := delay :: rest.delays }
      else { result := Except.error e, calls := 1, delays := [] }

/-- `retryWithBackoff(fn, maxRetries = 3)`. -/
def retryWithBackoff (fn : Nat → Except String String) (maxRetries : Nat := 3) :
    RetryOutcome :=
  retryAux fn none 0 maxRetries

/-- The structured result both client operations return: `{success, text?}`
on success, `{success: false, error, (text: '')}` on failure. -/
structure SummaryResult where
  success : Bool
  text : Option String
  error : Option String
deriving DecidableEq, Repr

/-- The prompt template of `summarizeText`, instantiated with the
already-truncated text. -/
def summarizePrompt (truncatedText : String) : String :=
  "You are an expert content summarizer. Analyze and summarize the following web content in a clear, well-structured format.\n\nCONTENT:\n" ++
  truncatedText ++
  "\n\nINSTRUCTIONS:\n- Provide a comprehensive summary that captures the main ideas\n- Use clear paragraphs and bullet points where appropriate\n- Maintain the key information and context\n- Write in a professional yet accessible tone\n- Keep the summary concise but informative (aim for 200-400 words)\n\nProvide your summary now:"

/-- The prompt template of `extractKeyPoints`. -/
def keyPointsPrompt (truncatedText : String) : String :=
  "Extract the 5-7 most important key points from this content. Return them as a numbered list.\n\nCONTENT:\n" ++
  truncatedText ++
  "\n\nProvide only the key points in this format:\n1. [First key point]\n2. [Second key point]\n..."

/-- `summarizeText` (geminiClient.js): truncate the input to 8000
characters, build the prompt, run the model call under `retryWithBackoff`
with the default budget, and catch any propagated error into
`{success: false, error: error.message || 'Failed to generate summary'}`.
`upstream prompt i` is the outcome of the i-th `model.generateContent
(prompt)` call; the retry trace is returned alongside the result. -/
def summarizeText (upstream : String → Nat → Except String String)
    (text : String) : SummaryResult × RetryOutcome :=
  let truncatedText := String.mk (text.data.take 8000)
  let prompt := summarizePrompt truncatedText
  let run := retryWithBackoff (upstream prompt)
  match run.result with
  | Except.ok summary => ({ success := true, text := some summary, error := none }, run)
  | Except.error e =>
    ({ success := false, text := none
       error := some (if e.data.isEmpty then "Failed to generate summary" else e) }, run)

/-- `extractKeyPoints` (geminiClient.js): truncate to 6000 characters; the
catch branch returns `{success: false, error: error.message, text: ''}`. -/
def extractKeyPoints (upstream : String → Nat → Except String String)
    (text : String) : SummaryResult × RetryOutcome :=
  let truncatedText := String.mk (text.data.take 6000)
  let prompt := keyPointsPrompt truncatedText
  let run := retryWithBackoff (upstream prompt)
  match run.result with
  | Except.ok keyPoints => ({ success := true, text := some keyPoints, error := none }, run)
  | Except.error e =>
    ({ success := false, text := some "", error := some e }, run)

/-! ## Helper notions and lemmas

`noWsRunB l` holds when `l` contains no two adjacent whitespace characters,
i.e. no run of two or more consecutive whitespace characters. -/

def noWsRunB : List Char → Bool
  | a :: b :: rest => !(jsWs a && jsWs b) && noWsRunB (b :: rest)
  | _ => true

/-- `headNotWs l` holds when `l` does not start with a whitespace character. -/
def headNotWs : List Char → Bool
  | [] => true
  | c :: _ => !jsWs c

/-- The adjacency condition of `noWsRunB` as a relation, for transport along
`List.Chain'` lemmas. -/
def wsPairOk (a b : Char) : Prop := jsWs a = false ∨ jsWs b = false

theorem noWsRunB_iff_chain : ∀ l : List Char, noWsRunB l = true ↔ l.Chain' wsPairOk
  | [] => by simp [noWsRunB, List.chain'_nil]
  | [a] => by simp [noWsRunB]
  | a :: b :: rest => by
    rw [List.chain'_cons]
    have ih := noWsRunB_iff_chain (b :: rest)
    simp only [noWsRunB, Bool.and_eq_true, Bool.not_eq_true'] at *
    constructor
    · rintro ⟨hab, h⟩
      refine ⟨?_, ih.mp h⟩
      rcases Bool.and_eq_false_iff.mp hab with h' | h'
      · exact Or.inl h'
      · exact Or.inr h'
    · rintro ⟨hab, h⟩
      refine ⟨?_, ih.mpr h⟩
      rcases hab with h' | h' <;> simp [h']

theorem noWsRunB_reverse (l : List Char) : noWsRunB l.reverse = noWsRunB l := by
  have flipIff : ∀ m : List Char, m.Chain' (flip wsPairOk) ↔ m.Chain' wsPairOk := by
    intro m
    constructor
    · exact fun h => h.imp (fun _ _ hab => Or.symm hab)
    · exact fun h => h.imp (fun _ _ hab => Or.symm hab)
  rcases h : noWsRunB l with _ | _
  · rcases h' : noWsRunB l.reverse with _ | _
    · rfl
    · exfalso
      have := (noWsRunB_iff_chain l.reverse).mp h'
      rw [List.chain'_reverse, flipIff] at this
      rw [(noWsRunB_iff_chain l).mpr this] at h
      exact absurd h (by simp)
  · have := (noWsRunB_iff_chain l).mp h
    rw [← flipIff, ← List.chain'_reverse] at this
    rw [(noWsRunB_iff_chain l.reverse).mpr this]

theorem noWsRunB_tail {c : Char} {l : List Char} (h : noWsRunB (c :: l) = true) :
    noWsRunB l = true := by
  cases l with
  | nil => rfl
  | cons b rest =>
    simp only [noWsRunB, Bool.and_eq_true] at h
    exact h.2

theorem noWsRunB_dropWhile (p : Char → Bool) :
    ∀ l : List Char, noWsRunB l = true → noWsRunB (l.dropWhile p) = true := by
  intro l h
  induction l with
  | nil => exact h
  | cons c rest ih =>
    rw [List.dropWhile_cons]
    by_cases hp : p c = true
    · simp only [hp, if_true]
      exact ih (noWsRunB_tail h)
    · simp only [hp, if_false]
      exact h

theorem noWsRunB_rdrop {l : List Char} (h : noWsRunB l = true) :
    noWsRunB (rdropWsList l) = true := by
  unfold rdropWsList
  rw [noWsRunB_reverse]
  exact noWsRunB_dropWhile jsWs l.reverse (by rw [noWsRunB_reverse]; exact h)

theorem noWsRunB_trim {l : List Char} (h : noWsRunB l = true) :
    noWsRunB (trimList l) = true :=
  noWsRunB_rdrop (noWsRunB_dropWhile jsWs l h)

/-- The whitespace-collapse step emits no adjacent whitespace pair, and with
the run flag set it starts with a non-whitespace character. -/
theorem collapseWsAux_noRun :
    ∀ l : List Char,
      noWsRunB (collapseWsAux false l) = true ∧
      (noWsRunB (collapseWsAux true l) = true ∧ headNotWs (collapseWsAux true l) = true) := by
  intro l
  induction l with
  | nil => exact ⟨rfl, rfl, rfl⟩
  | cons c rest ih =>
    obtain ⟨ihF, ihT, ihH⟩ := ih
    by_cases hc : jsWs c = true
    · refine ⟨?_, ?_, ?_⟩
      · show noWsRunB (collapseWsAux false (c :: rest)) = true
        simp only [collapseWsAux, hc, if_true]
        cases hT : collapseWsAux true rest with
        | nil => rfl
        | cons d ds =>
          rw [hT] at ihT ihH
          simp only [noWsRunB, Bool.and_eq_true]
          refine ⟨?_, ihT⟩
          simp only [headNotWs, Bool.not_eq_true'] at ihH
          simp [ihH]
      · simp only [collapseWsAux, hc, if_true]
        exact ihT
      · simp only [collapseWsAux, hc, if_true]
        exact ihH
    · have hcf : jsWs c = false := by
        cases h' : jsWs c
        · rfl
        · exact absurd h' hc
      refine ⟨?_, ?_, ?_⟩
      · show noWsRunB (collapseWsAux false (c :: rest)) = true
        simp only [collapseWsAux, hcf, Bool.false_eq_true, if_false]
        cases hF : collapseWsAux false rest with
        | nil => rfl
        | cons d ds =>
          rw [hF] at ihF
          simp only [noWsRunB, Bool.and_eq_true]
          exact ⟨by simp [hcf], ihF⟩
      · show noWsRunB (collapseWsAux true (c :: rest)) = true
        simp only [collapseWsAux, hcf, Bool.false_eq_true, if_false]
        cases hF : collapseWsAux false rest with
        | nil => rfl
        | cons d ds =>
          rw [hF] at ihF
          simp only [noWsRunB, Bool.and_eq_true]
          exact ⟨by simp [hcf], ihF⟩
      · show headNotWs (collapseWsAux true (c :: rest)) = true
        simp only [collapseWsAux, hcf, Bool.false_eq_true, if_false]
        simp [headNotWs, hcf]

theorem collapseWs_noRun (l : List Char) : noWsRunB (collapseWs l) = true :=
  (collapseWsAux_noRun l).1

/-- Every character emitted by the collapse step is a space or came from the
input. -/
theorem collapseWsAux_mem :
    ∀ (b : Bool) (l : List Char) (c : Char), c ∈ collapseWsAux b l → c = ' ' ∨ c ∈ l := by
  intro b l
  induction l generalizing b with
  | nil => intro c h; exact absurd h (by simp [collapseWsAux])
  | cons d rest ih =>
    intro c h
    by_cases hd : jsWs d = true
    · simp only [collapseWsAux, hd, if_true] at h
      cases b with
      | true =>
        rcases ih true c h with h' | h'
        · exact Or.inl h'
        · exact Or.inr (List.mem_cons_of_mem d h')
      | false =>
        rcases List.mem_cons.mp h with h' | h'
        · exact Or.inl h'
        · rcases ih true c h' with h'' | h''
          · exact Or.inl h''
          · exact Or.inr (List.mem_cons_of_mem d h'')
    · have hdf : jsWs d = false := by cases h' : jsWs d; rfl; exact absurd h' hd
      simp only [collapseWsAux, hdf, Bool.false_eq_true, if_false] at h
      rcases List.mem_cons.mp h with h' | h'
      · exact Or.inr (h' ▸ List.mem_cons_self d rest)
      · rcases ih false c h' with h'' | h''
        · exact Or.inl h''
        · exact Or.inr (List.mem_cons_of_mem d h'')

/-- Every whitespace character emitted by the collapse step is a plain space. -/
theorem collapseWsAux_wsSpace :
    ∀ (b : Bool) (l : List Char) (c : Char),
      c ∈ collapseWsAux b l → jsWs c = true → c = ' ' := by
  intro b l
  induction l generalizing b with
  | nil => intro c h; exact absurd h (by simp [collapseWsAux])
  | cons d rest ih =>
    intro c h hws
    by_cases hd : jsWs d = true
    · simp only [collapseWsAux, hd, if_true] at h
      cases b with
      | true => exact ih true c h hws
      | false =>
        rcases List.mem_cons.mp h with h' | h'
        · exact h'
        · exact ih true c h' hws
    · have hdf : jsWs d = false := by cases h' : jsWs d; rfl; exact absurd h' hd
      simp only [collapseWsAux, hdf, Bool.false_eq_true, if_false] at h
      rcases List.mem_cons.mp h with h' | h'
      · rw [h'] at hws
        rw [hws] at hdf
        exact absurd hdf (by simp)
      · exact ih false c h' hws

/-- With the run flag set but a non-whitespace head, the collapse step
behaves as with the flag clear. -/
theorem collapseWsAux_true_of_headNot (l : List Char) (h : headNotWs l = true) :
    collapseWsAux true l = collapseWsAux false l := by
  cases l with
  | nil => rfl
  | cons c rest =>
    simp only [headNotWs, Bool.not_eq_true'] at h
    simp [collapseWsAux, h]

/-- Collapsing is the identity on lists with no whitespace runs whose only
whitespace character is the plain space. -/
theorem collapseWsAux_fixed :
    ∀ l : List Char, noWsRunB l = true → (∀ c ∈ l, jsWs c = true → c = ' ') →
      collapseWsAux false l = l := by
  intro l
  induction l with
  | nil => intro _ _; rfl
  | cons c rest ih =>
    intro hrun hsp
    by_cases hc : jsWs c = true
    · have hcsp : c = ' ' := hsp c (List.mem_cons_self c rest) hc
      have hhead : headNotWs rest = true := by
        cases rest with
        | nil => rfl
        | cons d ds =>
          simp only [noWsRunB, Bool.and_eq_true, Bool.not_eq_true',
            Bool.and_eq_false_iff] at hrun
          rcases hrun.1 with h' | h'
          · rw [hc] at h'
            exact absurd h' (by simp)
          · simp [headNotWs, h']
      simp only [collapseWsAux, hc, if_true, Bool.false_eq_true, if_false]
      rw [collapseWsAux_true_of_headNot rest hhead,
        ih (noWsRunB_tail hrun) (fun d hd hws => hsp d (List.mem_cons_of_mem c hd) hws), hcsp]
    · have hcf : jsWs c = false := by cases h' : jsWs c; rfl; exact absurd h' hc
      simp only [collapseWsAux, hcf, Bool.false_eq_true, if_false]
      rw [ih (noWsRunB_tail hrun) (fun d hd hws => hsp d (List.mem_cons_of_mem c hd) hws)]

theorem headNotWs_dropWhile (l : List Char) : headNotWs (l.dropWhile jsWs) = true := by
  induction l with
  | nil => rfl
  | cons c rest ih =>
    rw [List.dropWhile_cons]
    by_cases hc : jsWs c = true
    · simp only [hc, if_true]; exact ih
    · have hcf : jsWs c = false := by cases h' : jsWs c; rfl; exact absurd h' hc
      simp [hcf, headNotWs]

theorem dropWhile_of_headNotWs {l : List Char} (h : headNotWs l = true) :
    l.dropWhile jsWs = l := by
  cases l with
  | nil => rfl
  | cons c rest =>
    simp only [headNotWs, Bool.not_eq_true'] at h
    simp [List.dropWhile_cons, h]

theorem headNotWs_of_leading {l₁ l₂ : List Char} (h : l₁ <+: l₂)
    (h₂ : headNotWs l₂ = true) : headNotWs l₁ = true := by
  cases l₁ with
  | nil => rfl
  | cons c rest =>
    obtain ⟨t, ht⟩ := h
    rw [← ht] at h₂
    exact h₂

theorem rdropWsList_leading (l : List Char) : rdropWsList l <+: l := by
  have h : (l.reverse.dropWhile jsWs).reverse <+: l.reverse.reverse :=
    List.reverse_prefix.mpr (List.dropWhile_suffix jsWs)
  rwa [List.reverse_reverse] at h

theorem rdropWsList_of_lastNot {l : List Char} (h : headNotWs l.reverse = true) :
    rdropWsList l = l := by
  unfold rdropWsList
  rw [dropWhile_of_headNotWs h, List.reverse_reverse]

theorem reverse_rdropWsList (l : List Char) :
    (rdropWsList l).reverse = l.reverse.dropWhile jsWs := by
  unfold rdropWsList
  rw [List.reverse_reverse]

/-- `trim` is the identity on already-trimmed lists. -/
theorem trimList_invariant {l : List Char} (h₁ : headNotWs l = true)
    (h₂ : headNotWs l.reverse = true) : trimList l = l := by
  unfold trimList
  rw [dropWhile_of_headNotWs h₁, rdropWsList_of_lastNot h₂]

theorem trimList_headNot (l : List Char) : headNotWs (trimList l) = true :=
  headNotWs_of_leading (rdropWsList_leading (l.dropWhile jsWs)) (headNotWs_dropWhile l)

theorem trimList_lastNot (l : List Char) : headNotWs (trimList l).reverse = true := by
  unfold trimList
  rw [reverse_rdropWsList]
  exact headNotWs_dropWhile _

theorem trimList_idem (l : List Char) : trimList (trimList l) = trimList l :=
  trimList_invariant (trimList_headNot l) (trimList_lastNot l)

theorem trimList_mem {l : List Char} {c : Char} (h : c ∈ trimList l) : c ∈ l := by
  unfold trimList rdropWsList at h
  rw [List.mem_reverse] at h
  have h' := List.dropWhile_subset jsWs h
  rw [List.mem_reverse] at h'
  exact List.dropWhile_subset jsWs h'

theorem str_eq_empty_of_data_nil (t : String) (h : t.data = []) : t = "" := by
  cases t with
  | mk d =>
    simp only at h
    rw [h]

/-- On inputs kept whole by the character filter, `cleanText` is collapse
followed by trim. -/
theorem cleanText_allowed_eq (s : String) (h : ∀ c ∈ s.data, allowedChar c = true) :
    cleanText s = String.mk (trimList (collapseWs s.data)) := by
  unfold cleanText
  by_cases he : s.data.isEmpty
  · rw [if_pos he]
    rw [List.isEmpty_iff] at he
    rw [he]
    rfl
  · rw [if_neg he]
    congr 1
    congr 1
    apply List.filter_eq_self.mpr
    intro a ha
    rcases collapseWsAux_mem false s.data a ha with h' | h'
    · rw [h']
      decide
    · exact h a h'

/-- Every whitespace character surviving `cleanText` is a plain space. -/
theorem cleanText_wsSpace (s : String) :
    ∀ c ∈ (cleanText s).data, jsWs c = true → c = ' ' := by
  intro c hc hws
  unfold cleanText at hc
  by_cases he : s.data.isEmpty
  · rw [if_pos he] at hc
    exact absurd hc (by simp)
  · rw [if_neg he] at hc
    simp only at hc
    have h₁ := trimList_mem hc
    have h₂ := (List.mem_filter.mp h₁).1
    exact collapseWsAux_wsSpace false s.data c h₂ hws

theorem cleanText_noRun_allowed (s : String)
    (h : ∀ c ∈ s.data, allowedChar c = true) :
    noWsRunB (cleanText s).data = true := by
  rw [cleanText_allowed_eq s h]
  exact noWsRunB_trim (collapseWs_noRun s.data)

theorem cleanText_mem_allowed (s : String)
    (h : ∀ c ∈ s.data, allowedChar c = true) :
    ∀ c ∈ (cleanText s).data, allowedChar c = true := by
  intro c hc
  rw [cleanText_allowed_eq s h] at hc
  simp only at hc
  have h₁ := trimList_mem hc
  rcases collapseWsAux_mem false s.data c h₁ with h' | h'
  · rw [h']
    decide
  · exact h c h'

theorem cleanText_idem_allowed (s : String)
    (h : ∀ c ∈ s.data, allowedChar c = true) :
    cleanText (cleanText s) = cleanText s := by
  by_cases he : (cleanText s).data.isEmpty
  · have h0 : cleanText s = "" :=
      str_eq_empty_of_data_nil _ (List.isEmpty_iff.mp he)
    rw [h0]
    rfl
  · conv_lhs => rw [cleanText]
    rw [if_neg he]
    have hfix : collapseWs (cleanText s).data = (cleanText s).data :=
      collapseWsAux_fixed (cleanText s).data (cleanText_noRun_allowed s h)
        (cleanText_wsSpace s)
    rw [show collapseWs (cleanText s).data = collapseWsAux false (cleanText s).data from rfl] at hfix
    rw [show collapseWs (cleanText s).data = collapseWsAux false (cleanText s).data from rfl]
    rw [hfix]
    rw [List.filter_eq_self.mpr (cleanText_mem_allowed s h)]
    rw [cleanText_allowed_eq s h]
    simp only
    rw [trimList_idem]

/-- A JavaScript split always produces at least one field. -/
theorem jsSplitAux_ne_nil (p : Char → Bool) :
    ∀ (l acc : List Char) (b : Bool), 1 ≤ (jsSplitAux p b l acc).length := by
  intro l
  induction l with
  | nil => intro acc b; simp [jsSplitAux]
  | cons c rest ih =>
    intro acc b
    by_cases hc : p c = true
    · cases b with
      | true =>
        simp only [jsSplitAux, hc, if_true]
        exact ih acc true
      | false =>
        simp only [jsSplitAux, hc, if_true]
        exact Nat.succ_le_succ (Nat.zero_le _)
    · have hcf : p c = false := by cases h' : p c; rfl; exact absurd h' hc
      simp only [jsSplitAux, hcf, Bool.false_eq_true, if_false]
      exact ih (c :: acc) false

theorem jsSplitOn_ne_nil (p : Char → Bool) (l : List Char) :
    1 ≤ (jsSplitOn p l).length :=
  jsSplitAux_ne_nil p l [] false

/-- The retry loop never invokes the operation more often than `maxRetries`. -/
theorem retryAux_calls_le (fn : Nat → Except String String) :
    ∀ (fuel i : Nat) (lastError : Option String),
      (retryAux fn lastError i fuel).calls ≤ fuel := by
  intro fuel
  induction fuel with
  | zero => intro i le; exact Nat.le_refl 0
  | succ fuel ih =>
    intro i le
    simp only [retryAux]
    cases fn i with
    | ok v => exact Nat.le_add_left 1 fuel
    | error e =>
      by_cases hr : isRateLimitError e = true
      · simp only [hr, if_true]
        exact Nat.succ_le_succ (ih (i + 1) (some e))
      · have hrf : isRateLimitError e = false := by
          cases h' : isRateLimitError e; rfl; exact absurd h' hr
        simp only [hrf, Bool.false_eq_true, if_false]
        exact Nat.le_add_left 1 fuel

/-- The j-th backoff sleep of a run starting at loop index `i` lasts
`min(1000 * 2^(i+j), 10000)` ms. -/
theorem retryAux_delays (fn : Nat → Except String String) :
    ∀ (fuel i : Nat) (lastError : Option String) (j : Nat),
      j < (retryAux fn lastError i fuel).delays.length →
      (retryAux fn lastError i fuel).delays.getD j 0 = min (1000 * 2 ^ (i + j)) 10000 := by
  intro fuel
  induction fuel with
  | zero => intro i le j hj; exact absurd hj (by simp [retryAux])
  | succ fuel ih =>
    intro i le j hj
    simp only [retryAux] at hj ⊢
    cases hfn : fn i with
    | ok v => rw [hfn] at hj; exact absurd hj (by simp)
    | error e =>
      rw [hfn] at hj
      by_cases hr : isRateLimitError e = true
      · simp only [hr, if_true] at hj ⊢
        cases j with
        | zero => simp
        | succ j =>
          simp only [List.getD_cons_succ]
          simp only [List.length_cons, Nat.succ_lt_succ_iff] at hj
          rw [ih (i + 1) (some e) j hj]
          have harith : i + 1 + j = i + (j + 1) := by omega
          rw [harith]
      · have hrf : isRateLimitError e = false := by
          cases h' : isRateLimitError e; rfl; exact absurd h' hr
        simp only [hrf, Bool.false_eq_true, if_false] at hj
        exact absurd hj (by simp)

/-- Two rate-limited failures followed by a success: the third call's value
is returned after sleeps of 1000 and 2000 ms. -/
theorem retryWithBackoff_two_rate_limits (fn : Nat → Except String String)
    (e0 e1 v : String) (maxRetries : Nat) (h3 : 3 ≤ maxRetries)
    (h0 : fn 0 = Except.error e0) (hr0 : isRateLimitError e0 = true)
    (h1 : fn 1 = Except.error e1) (hr1 : isRateLimitError e1 = true)
    (h2 : fn 2 = Except.ok v) :
    retryWithBackoff fn maxRetries =
      { result := Except.ok v, calls := 3, delays := [1000, 2000] } := by
  obtain ⟨k, rfl⟩ : ∃ k, maxRetries = k + 3 := ⟨maxRetries - 3, by omega⟩
  unfold retryWithBackoff
  norm_num [retryAux, h0, h1, h2, hr0, hr1]

/-- A non-rate-limit failure on the first call rethrows at once: one call, no
sleeps. -/
theorem retryWithBackoff_nonretryable (fn : Nat → Except String String)
    (e : String) (maxRetries : Nat) (h1 : 1 ≤ maxRetries)
    (h0 : fn 0 = Except.error e) (hnr : isRateLimitError e = false) :
    retryWithBackoff fn maxRetries =
      { result := Except.error e, calls := 1, delays := [] } := by
  obtain ⟨k, rfl⟩ : ∃ k, maxRetries = k + 1 := ⟨maxRetries - 1, by omega⟩
  unfold retryWithBackoff
  norm_num [retryAux, h0, hnr]

/-- Three rate-limited failures exhaust the default budget: the last error is
rethrown after three calls and sleeps of 1000, 2000, 4000 ms. -/
theorem retryWithBackoff_exhausted (fn : Nat → Except String String)
    (es : Nat → String)
    (h : ∀ i, fn i = Except.error (es i))
    (hr0 : isRateLimitError (es 0) = true)
    (hr1 : isRateLimitError (es 1) = true)
    (hr2 : isRateLimitError (es 2) = true) :
    retryWithBackoff fn 3 =
      { result := Except.error (es 2), calls := 3, delays := [1000, 2000, 4000] } := by
  unfold retryWithBackoff
  norm_num [retryAux, h 0, h 1, h 2, hr0, hr1, hr2]

/-- The Cheerio fold never shrinks the accumulated text. -/
theorem cheerio_foldl_acc_le (doc : String → Option String) :
    ∀ (l : List String) (acc : String),
      acc.data.length ≤ (l.foldl (cheerioStep doc) acc).data.length := by
  intro l
  induction l with
  | nil => intro acc; exact Nat.le_refl _
  | cons sel rest ih =>
    intro acc
    rw [List.foldl_cons]
    refine Nat.le_trans ?_ (ih (cheerioStep doc acc sel))
    unfold cheerioStep
    cases doc sel with
    | none => exact Nat.le_refl _
    | some t =>
      by_cases hlt : acc.data.length < t.data.length
      · simp only [hlt, if_pos]
        exact Nat.le_of_lt hlt
      · simp only [if_neg hlt]
        exact Nat.le_refl _

/-- The Cheerio fold's result is at least as long as every matched
candidate's text. -/
theorem cheerio_foldl_candidate_le (doc : String → Option String) :
    ∀ (l : List String) (acc : String) (sel : String), sel ∈ l →
      ∀ t, doc sel = some t →
        t.data.length ≤ (l.foldl (cheerioStep doc) acc).data.length := by
  intro l
  induction l with
  | nil => intro acc sel h; exact absurd h (List.not_mem_nil sel)
  | cons s rest ih =>
    intro acc sel hmem t ht
    rw [List.foldl_cons]
    rcases List.mem_cons.mp hmem with h' | h'
    · refine Nat.le_trans ?_ (cheerio_foldl_acc_le doc rest (cheerioStep doc acc s))
      unfold cheerioStep
      rw [← h', ht]
      show t.data.length ≤ (if acc.data.length < t.data.length then t else acc).data.length
      by_cases hlt : acc.data.length < t.data.length
      · rw [if_pos hlt]
      · rw [if_neg hlt]
        exact Nat.le_of_not_lt hlt
    · exact ih (cheerioStep doc acc s) sel h' t ht

/-- When no selector's text beats the 200-character threshold, the Puppeteer
loop falls back to the body text. -/
theorem selectPuppeteerGo_fallback (doc : String → Option String) (bodyText : String) :
    ∀ l : List String,
      (∀ s ∈ l, ∀ u, doc s = some u → u.data.length ≤ 200) →
      selectPuppeteerGo doc bodyText l = bodyText := by
  intro l
  induction l with
  | nil => intro _; rfl
  | cons s rest ih =>
    intro h
    cases hds : doc s with
    | none =>
      unfold selectPuppeteerGo
      rw [hds]
      exact ih fun s' hs' u hu => h s' (List.mem_cons_of_mem s hs') u hu
    | some t =>
      have hle : t.data.length ≤ 200 := h s (List.mem_cons_self s rest) t hds
      unfold selectPuppeteerGo
      rw [hds]
      show (if 200 < t.data.length then t else selectPuppeteerGo doc bodyText rest) = bodyText
      rw [if_neg (by omega)]
      exact ih fun s' hs' u hu => h s' (List.mem_cons_of_mem s hs') u hu

/-- The Puppeteer loop returns the text of the first selector over the
threshold, regardless of what later selectors hold. -/
theorem selectPuppeteerGo_first (doc : String → Option String) (bodyText : String) :
    ∀ (pre : List String) (sel : String) (post : List String) (t : String),
      (∀ s ∈ pre, ∀ u, doc s = some u → u.data.length ≤ 200) →
      doc sel = some t → 200 < t.data.length →
      selectPuppeteerGo doc bodyText (pre ++ sel :: post) = t := by
  intro pre
  induction pre with
  | nil =>
    intro sel post t _ ht hgt
    rw [List.nil_append]
    unfold selectPuppeteerGo
    rw [ht]
    exact if_pos hgt
  | cons s rest ih =>
    intro sel post t hpre ht hgt
    rw [List.cons_append]
    cases hds : doc s with
    | none =>
      unfold selectPuppeteerGo
      rw [hds]
      exact ih sel post t (fun s' hs' u hu => hpre s' (List.mem_cons_of_mem s hs') u hu) ht hgt
    | some u =>
      have hle : u.data.length ≤ 200 := hpre s (List.mem_cons_self s rest) u hds
      unfold selectPuppeteerGo
      rw [hds]
      show (if 200 < u.data.length then u
            else selectPuppeteerGo doc bodyText (rest ++ sel :: post)) = t
      rw [if_neg (by omega)]
      exact ih sel post t (fun s' hs' u' hu' => hpre s' (List.mem_cons_of_mem s hs') u' hu') ht hgt

/-! ## Claim theorems -/

/-- C1: `scrapeWebsite` runs the URL validator first and, on an invalid URL,
returns the invalid-URL error immediately without attempting any fetch;
otherwise it attempts the rendering (Puppeteer) fetcher first, attempts the
lightweight (Cheerio) fetcher exactly when the rendering fetcher returned no
result, and returns the single unified error exactly when both fetchers
returned no result. -/
theorem scrapeWebsite_validates_then_falls_back (url : String)
    (pup chee : Option ScrapeSuccess) :
    (isValidUrl url = false →
      scrapeWebsite url pup chee = (ScrapeOutcome.err invalidUrlError, [])) ∧
    (isValidUrl url = true →
      (scrapeWebsite url pup chee).2.head? = some Attempt.rendered ∧
      (Attempt.lightweight ∈ (scrapeWebsite url pup chee).2 ↔ pup = none) ∧
      (∀ r, pup = some r →
        scrapeWebsite url pup chee = (ScrapeOutcome.ok r, [Attempt.rendered])) ∧
      (∀ r, pup = none → chee = some r →
        scrapeWebsite url pup chee =
          (ScrapeOutcome.ok r, [Attempt.rendered, Attempt.lightweight])) ∧
      (pup = none → chee = none →
        scrapeWebsite url pup chee =
          (ScrapeOutcome.err allFailedError, [Attempt.rendered, Attempt.lightweight]))) := by
  constructor
  · intro h
    simp [scrapeWebsite, h]
  · intro h
    cases pup with
    | some r => simp [scrapeWebsite, h]
    | none =>
      cases chee with
      | some r => simp [scrapeWebsite, h]
      | none => simp [scrapeWebsite, h]

theorem scrapeWebsite_validates_then_falls_back_witness :
    scrapeWebsite "not a url" none none = (ScrapeOutcome.err invalidUrlError, []) ∧
    scrapeWebsite "https://example.com/" none none =
      (ScrapeOutcome.err allFailedError, [Attempt.rendered, Attempt.lightweight]) :=
  ⟨(scrapeWebsite_validates_then_falls_back "not a url" none none).1 (by decide),
   ((scrapeWebsite_validates_then_falls_back "https://example.com/" none none).2
     (by decide)).2.2.2.2 rfl rfl⟩

/-- C2: every `retryWithBackoff` run invokes the wrapped operation at most
`maxRetries` times and its j-th backoff sleep lasts `min(1000 * 2^j, 10000)`
ms; an operation failing with rate-limit errors exactly twice and then
succeeding is invoked exactly 3 times, with sleeps of 1000 then 2000 ms,
and its successful value is returned. -/
theorem retryWithBackoff_rate_limit_spec (fn : Nat → Except String String)
    (maxRetries : Nat) :
    (retryWithBackoff fn maxRetries).calls ≤ maxRetries ∧
    (∀ j, j < (retryWithBackoff fn maxRetries).delays.length →
      (retryWithBackoff fn maxRetries).delays.getD j 0 = min (1000 * 2 ^ j) 10000) ∧
    (∀ e0 e1 v, fn 0 = Except.error e0 → isRateLimitError e0 = true →
      fn 1 = Except.error e1 → isRateLimitError e1 = true →
      fn 2 = Except.ok v → 3 ≤ maxRetries →
      retryWithBackoff fn maxRetries =
        { result := Except.ok v, calls := 3, delays := [1000, 2000] }) := by
  refine ⟨retryAux_calls_le fn maxRetries 0 none, ?_, ?_⟩
  · intro j hj
    have h := retryAux_delays fn maxRetries 0 none j hj
    rwa [Nat.zero_add] at h
  · intro e0 e1 v h0 hr0 h1 hr1 h2 h3
    exact retryWithBackoff_two_rate_limits fn e0 e1 v maxRetries h3 h0 hr0 h1 hr1 h2

theorem retryWithBackoff_rate_limit_spec_witness :
    retryWithBackoff (fun i => if i < 2 then Except.error "429" else Except.ok "done") 3 =
      { result := Except.ok "done", calls := 3, delays := [1000, 2000] } :=
  (retryWithBackoff_rate_limit_spec
      (fun i => if i < 2 then Except.error "429" else Except.ok "done") 3).2.2
    "429" "429" "done" rfl (by decide) rfl (by decide) rfl (by omega)

/-- C3: against an upstream failing with a non-rate-limit error on the first
call, `summarizeText` and `extractKeyPoints` invoke the upstream exactly
once, perform no backoff sleep, and return a structured failure carrying the
error message instead of raising; when the retry budget is exhausted by
rate-limit errors the result is likewise a structured failure after 3
calls. -/
theorem summarize_nonretryable_single_call
    (upstream : String → Nat → Except String String) (e : String)
    (h0 : ∀ p, upstream p 0 = Except.error e)
    (hnr : isRateLimitError e = false) (hne : e.data.isEmpty = false)
    (text : String) :
    summarizeText upstream text =
      ({ success := false, text := none, error := some e },
       { result := Except.error e, calls := 1, delays := [] }) ∧
    extractKeyPoints upstream text =
      ({ success := false, text := some "", error := some e },
       { result := Except.error e, calls := 1, delays := [] }) ∧
    (∀ (up' : String → Nat → Except String String) (e' : String),
      (∀ p i, up' p i = Except.error e') → isRateLimitError e' = true →
      (summarizeText up' text).1.success = false ∧
      (summarizeText up' text).2.calls = 3) := by
  have hsum : retryWithBackoff
      (upstream (summarizePrompt (String.mk (text.data.take 8000)))) 3 =
      { result := Except.error e, calls := 1, delays := [] } :=
    retryWithBackoff_nonretryable _ e 3 (by omega) (h0 _) hnr
  have hkp : retryWithBackoff
      (upstream (keyPointsPrompt (String.mk (text.data.take 6000)))) 3 =
      { result := Except.error e, calls := 1, delays := [] } :=
    retryWithBackoff_nonretryable _ e 3 (by omega) (h0 _) hnr
  refine ⟨?_, ?_, ?_⟩
  · simp [summarizeText, hsum, hne]
  · simp [extractKeyPoints, hkp]
  · intro up' e' h' hr'
    have hrun : retryWithBackoff
        (up' (summarizePrompt (String.mk (text.data.take 8000)))) 3 =
        { result := Except.error e', calls := 3, delays := [1000, 2000, 4000] } :=
      retryWithBackoff_exhausted _ (fun _ => e') (fun i => h' _ i) hr' hr' hr'
    constructor
    · simp [summarizeText, hrun]
    · simp [summarizeText, hrun]

theorem summarize_nonretryable_single_call_witness :
    summarizeText (fun _ _ => Except.error "boom") "hello" =
      ({ success := false, text := none, error := some "boom" },
       { result := Except.error "boom", calls := 1, delays := [] }) ∧
    (summarizeText (fun _ _ => Except.error "429") "hello").1.success = false := by
  have h := summarize_nonretryable_single_call (fun _ _ => Except.error "boom") "boom"
    (fun _ => rfl) (by decide) (by decide) "hello"
  exact ⟨h.1, (h.2.2 (fun _ _ => Except.error "429") "429" (fun _ _ => rfl) (by decide)).1⟩

/-- C4: both fetchers declare success exactly when the normalised, truncated
text strictly exceeds 100 characters; at 100 characters or fewer they return
no result. -/
theorem scrape_success_iff_over_100 (title text : String) :
    ((finalizePuppeteer title text).isSome ↔ 100 < (scrapeNormalize text).data.length) ∧
    ((finalizeCheerio title text).isSome ↔ 100 < (scrapeNormalize text).data.length) := by
  unfold finalizePuppeteer finalizeCheerio
  by_cases h : 100 < (scrapeNormalize text).data.length
  · simp [h]
  · simp [h]

/-- C5: the Cheerio content selection keeps the candidate text of greatest
length across all matching selectors, not the first match: every matched
candidate is no longer than the selected text, and in a document where
`main` matches with shorter text and `body` with longer text, the body text
is selected. -/
theorem cheerio_selects_longest_candidate (doc : String → Option String) :
    (∀ sel ∈ contentSelectors, ∀ t, doc sel = some t →
      t.data.length ≤ (selectContentCheerio doc).data.length) ∧
    (∀ m b, doc "article" = none → doc "main" = some m →
      doc "[role=\"main\"]" = none → doc ".content" = none →
      doc ".post-content" = none → doc ".article-content" = none →
      doc ".entry-content" = none → doc "#main-content" = none →
      doc "body" = some b → m.data.length < b.data.length →
      selectContentCheerio doc = b) := by
  constructor
  · intro sel hmem t ht
    exact cheerio_foldl_candidate_le doc contentSelectors "" sel hmem t ht
  · intro m b h1 h2 h3 h4 h5 h6 h7 h8 h9 hlt
    unfold selectContentCheerio contentSelectors
    simp only [List.foldl_cons, List.foldl_nil, cheerioStep, h1, h2, h3, h4, h5, h6, h7, h8, h9]
    by_cases h0 : ("" : String).data.length < m.data.length
    · rw [if_pos h0, if_pos hlt]
    · rw [if_neg h0, if_pos (show ("" : String).data.length < b.data.length from
        Nat.lt_of_le_of_lt (Nat.zero_le m.data.length) hlt)]

def docWitnessLight : String → Option String := fun sel =>
  if sel = "main" then some (String.mk (List.replicate 50 'x'))
  else if sel = "body" then some (String.mk (List.replicate 500 'y'))
  else none

theorem cheerio_selects_longest_candidate_witness :
    selectContentCheerio docWitnessLight = String.mk (List.replicate 500 'y') := by
  refine (cheerio_selects_longest_candidate docWitnessLight).2
    (String.mk (List.replicate 50 'x')) (String.mk (List.replicate 500 'y'))
    rfl rfl rfl rfl rfl rfl rfl rfl rfl ?_
  show (List.replicate 50 'x').length < (List.replicate 500 'y').length
  rw [List.length_replicate, List.length_replicate]
  omega

/-- C6: the Puppeteer content selection returns the text of the first
selector in its fixed priority order whose rendered text exceeds 200
characters — even when a later selector holds strictly more text — and
falls back to the body's text when no candidate exceeds 200 characters. -/
theorem puppeteer_selects_first_over_200 (doc : String → Option String)
    (bodyText : String) :
    (∀ (pre : List String) (sel : String) (post : List String) (t : String),
      mainSelectors = pre ++ sel :: post →
      (∀ s ∈ pre, ∀ u, doc s = some u → u.data.length ≤ 200) →
      doc sel = some t → 200 < t.data.length →
      selectContentPuppeteer doc bodyText = t) ∧
    ((∀ s ∈ mainSelectors, ∀ u, doc s = some u → u.data.length ≤ 200) →
      selectContentPuppeteer doc bodyText = bodyText) := by
  constructor
  · intro pre sel post t hdec hpre ht hgt
    unfold selectContentPuppeteer
    rw [hdec]
    exact selectPuppeteerGo_first doc bodyText pre sel post t hpre ht hgt
  · intro h
    exact selectPuppeteerGo_fallback doc bodyText mainSelectors h

def docWitnessRender : String → Option String := fun sel =>
  if sel = "main" then some (String.mk (List.replicate 250 'a'))
  else if sel = "article" then some (String.mk (List.replicate 600 'b'))
  else none

theorem puppeteer_selects_first_over_200_witness :
    selectContentPuppeteer docWitnessRender "the body text" =
      String.mk (List.replicate 250 'a') := by
  refine (puppeteer_selects_first_over_200 docWitnessRender "the body text").1
    [] "main" ["article", "[role=\"main\"]", ".content", ".main-content", "#content", "body"]
    (String.mk (List.replicate 250 'a')) rfl
    (fun s hs u hu => absurd hs (List.not_mem_nil s)) rfl ?_
  show 200 < (List.replicate 250 'a').length
  rw [List.length_replicate]
  omega

/-- C7 as stated is false at `truncateText "aaaa" 3`: the result is
`"aaa..."`, of length 6 > 3, because `truncateText` appends a 3-character
ellipsis after cutting at `maxLength`. -/
theorem truncateText_counterexample :
    truncateText "aaaa" 3 = "aaa..." ∧ ¬((truncateText "aaaa" 3).data.length ≤ 3) := by
  constructor
  · decide
  · decide

/-- C7 amended: the scraper's normalisation/truncation step never exceeds
`maxTextLength`; `truncateText text maxLength` returns `text` unchanged when
it fits within `maxLength` and otherwise a string of exactly `maxLength + 3`
characters (the truncated prefix plus the `'...'` ellipsis), so its output
is bounded by `maxLength + 3`, not by `maxLength`. -/
theorem truncate_bounds (text : String) (maxLength : Nat) :
    (scrapeNormalize text).data.length ≤ SCRAPER_CONFIG.maxTextLength ∧
    (truncateText text maxLength).data.length ≤ maxLength + 3 ∧
    (text.data.length ≤ maxLength → truncateText text maxLength = text) ∧
    (maxLength < text.data.length →
      (truncateText text maxLength).data.length = maxLength + 3) := by
  have hlen : ∀ l : List Char, (String.mk l ++ "...").data.length = l.length + 3 := by
    intro l
    show (String.mk l ++ "...").data.length = l.length + 3
    rw [String.data_append]
    simp
  refine ⟨?_, ?_, ?_, ?_⟩
  · unfold scrapeNormalize
    show (((trimList (collapseWs text.data)).take SCRAPER_CONFIG.maxTextLength)).length ≤
      SCRAPER_CONFIG.maxTextLength
    rw [List.length_take]
    exact Nat.min_le_left _ _
  · unfold truncateText
    by_cases h : text.data.length ≤ maxLength
    · rw [if_pos h]
      omega
    · rw [if_neg h]
      rw [hlen]
      rw [List.length_take]
      omega
  · intro h
    unfold truncateText
    rw [if_pos h]
  · intro h
    unfold truncateText
    rw [if_neg (by omega)]
    rw [hlen]
    rw [List.length_take]
    omega

theorem truncate_bounds_witness :
    truncateText "ab" 5 = "ab" ∧ (truncateText "aaaaaa" 4).data.length = 4 + 3 :=
  ⟨(truncate_bounds "ab" 5).2.2.1 (by decide),
   (truncate_bounds "aaaaaa" 4).2.2.2 (by decide)⟩

/-- C8 as stated is false at `"a @ b"`: `cleanText "a @ b" = "a  b"`, which
contains a run of two consecutive spaces — the character filter removed the
`'@'` after the whitespace runs had already been collapsed — and
re-normalising yields `"a b"`, so `cleanText` is not idempotent either. -/
theorem cleanText_counterexample :
    noWsRunB (cleanText "a @ b").data = false ∧
    cleanText (cleanText "a @ b") ≠ cleanText "a @ b" := by
  constructor
  · decide
  · decide

/-- C8 amended: on input strings all of whose characters survive the filter
(word characters, whitespace, and the allowed punctuation), the output of
`cleanText` contains no run of two or more consecutive whitespace
characters, and `cleanText` is idempotent.  On other inputs the filter can
delete a character standing between two already-collapsed whitespace runs,
leaving adjacent spaces (see the counterexample). -/
theorem cleanText_noRun_idem (s : String)
    (h : ∀ c ∈ s.data, allowedChar c = true) :
    noWsRunB (cleanText s).data = true ∧ cleanText (cleanText s) = cleanText s :=
  ⟨cleanText_noRun_allowed s h, cleanText_idem_allowed s h⟩

theorem cleanText_noRun_idem_witness :
    noWsRunB (cleanText "hello   world,  bye.").data = true ∧
    cleanText (cleanText "hello   world,  bye.") = cleanText "hello   world,  bye." :=
  cleanText_noRun_idem "hello   world,  bye." (by decide)

/-- C9 as stated is false: `extractMetadata` stamps its result with the
current clock reading (`new Date().toISOString()` in the source, the `now`
argument in this embedding), so two invocations on the same text at
different times yield different `NormalizedMetadata` values. -/
theorem extractMetadata_timestamp_counterexample :
    extractMetadata "2024-01-01T00:00:00.000Z" "hello" ≠
      extractMetadata "2024-01-01T00:00:01.000Z" "hello" := by
  decide

/-- C9 amended: every field of `extractMetadata` except `timestamp` —
`wordCount`, `sentenceCount`, `characterCount`, `readingTime` — is a pure
function of the input text, identical across invocations; the `timestamp`
field reads the real-time clock and differs between invocations at
different times. -/
theorem extractMetadata_pure_except_timestamp (nowA nowB text : String) :
    (extractMetadata nowA text).wordCount = (extractMetadata nowB text).wordCount ∧
    (extractMetadata nowA text).sentenceCount = (extractMetadata nowB text).sentenceCount ∧
    (extractMetadata nowA text).characterCount = (extractMetadata nowB text).characterCount ∧
    (extractMetadata nowA text).readingTime = (extractMetadata nowB text).readingTime :=
  ⟨rfl, rfl, rfl, rfl⟩

/-- C10: on the empty string `extractMetadata` reports `wordCount = 1` (the
whitespace split of `""` yields one empty token), `sentenceCount = 0`,
`characterCount = 0` and `readingTime = "1 min read"`; and `wordCount` is
never 0 on any input. -/
theorem extractMetadata_empty_wordCount (now : String) :
    extractMetadata now "" =
      { wordCount := 1, sentenceCount := 0, characterCount := 0,
        readingTime := "1 min read", timestamp := now } ∧
    ∀ text : String, (extractMetadata now text).wordCount ≠ 0 := by
  constructor
  · rfl
  · intro text
    have h := jsSplitOn_ne_nil jsWs text.data
    show (jsSplitOn jsWs text.data).length ≠ 0
    omega
